import Mathlib

/-!
Verification of the Flappy Bird game component
(`flappy_bird_frontend/src/routes/FlappyBird.svelte`).

The component's game loop, physics, collision detection, obstacle
generation and input routing are embedded below as pure Lean functions
over an explicit game-state record.  JavaScript numbers are modelled as
rationals (all arithmetic performed by the component is addition,
subtraction, multiplication by constants, floor and comparisons, so the
rational model is exact for every quantity the claims mention).  The
random value drawn by `Math.random()` is passed in as an explicit
argument `r`; the single `requestAnimationFrame` handle is modelled by
the boolean `scheduled`.
-/

namespace Flappy

/-- Pipe width constant (source line 9). -/
def PIPE_WIDTH : ℚ := 52

/-- Bird size constant (source line 10). -/
def BIRD_SIZE : ℚ := 36

/-- Gravity constant 0.55 (source line 11). -/
def GRAVITY : ℚ := 11/20

/-- Jump impulse constant -8.5 (source line 12). -/
def JUMP : ℚ := -17/2

/-- Pipe gap constant (source line 13). -/
def PIPE_GAP : ℚ := 114

/-- Pipe spawn interval constant (source line 14). -/
def PIPE_INTERVAL : ℚ := 92

/-- Fixed bird x position (source line 15). -/
def BIRD_X : ℚ := 56

/-- Horizontal scroll speed 2.2 (source line 16). -/
def GAME_SPEED : ℚ := 11/5

/-- Ground band height (source line 17). -/
def GROUND_HEIGHT : ℚ := 54

/-- Maximum top-pipe height (source line 18). -/
def MAX_PIPE_HEIGHT : ℚ := 260

/-- Minimum top-pipe height (source line 19). -/
def MIN_PIPE_HEIGHT : ℚ := 40

/-- A pipe record (source lines 33-39); the optional `passed` field is
absent (falsy) until scoring sets it, so it is modelled as a `Bool`
starting `false`. -/
structure Pipe where
  x : ℚ
  width : ℚ
  height : ℚ
  gap : ℚ
  passed : Bool
deriving DecidableEq

/-- The bird record (source lines 41-47). -/
structure Bird where
  x : ℚ
  y : ℚ
  vy : ℚ
  width : ℚ
  height : ℚ
deriving DecidableEq

/-- The component's mutable session state: UI flags, score, best score,
the persisted localStorage entry (as the integer written), the pipe
sequence, the bird, and the logical world dimensions. -/
structure GState where
  gameStarted : Bool
  gamePaused : Bool
  gameOver : Bool
  scheduled : Bool
  score : ℕ
  bestScore : ℤ
  persisted : Option ℤ
  pipes : List Pipe
  bird : Bird
  baseWidth : ℚ
  baseHeight : ℚ
deriving DecidableEq

/-- Initial bird (source lines 41-47 and resetGame lines 88-94). -/
def initBird (bh : ℚ) : Bird :=
  { x := BIRD_X, y := bh / 2, vy := 0, width := BIRD_SIZE, height := BIRD_SIZE }

/-- Component state on mount, before any input: all flags false, no
pipes, score 0; the loaded best score and the pre-existing persisted
entry are parameters. -/
def initState (bw bh : ℚ) (b0 : ℤ) (p0 : Option ℤ) : GState :=
  { gameStarted := false, gamePaused := false, gameOver := false,
    scheduled := false, score := 0, bestScore := b0, persisted := p0,
    pipes := [], bird := initBird bh, baseWidth := bw, baseHeight := bh }

/-- Axis-aligned bounding box overlap test (source lines 177-185). -/
def isColliding (x1 y1 w1 h1 x2 y2 w2 h2 : ℚ) : Bool :=
  decide (x1 < x2 + w2) && decide (x1 + w1 > x2) &&
  decide (y1 < y2 + h2) && decide (y1 + h1 > y2)

/-- Test of the bird against both obstacle boxes of one pipe
(source lines 151-158): upper box `(pipe.x, 0, PIPE_WIDTH, pipe.height)`,
lower box `(pipe.x, pipe.height+PIPE_GAP, PIPE_WIDTH,
baseHeight-GROUND_HEIGHT-(pipe.height+PIPE_GAP))`. -/
def hitPipe (b : Bird) (bh : ℚ) (p : Pipe) : Bool :=
  isColliding b.x b.y b.width b.height p.x 0 PIPE_WIDTH p.height ||
  isColliding b.x b.y b.width b.height p.x (p.height + PIPE_GAP) PIPE_WIDTH
    (bh - GROUND_HEIGHT - (p.height + PIPE_GAP))

/-- Result of the collision-and-scoring loop (source lines 147-173). -/
structure ScoreRes where
  pipes : List Pipe
  score : ℕ
  best : ℤ
  persisted : Option ℤ
  over : Bool
deriving DecidableEq

/-- The collision-and-scoring loop of `update` (source lines 147-173):
pipes are visited in sequence order; a hit ends the game and abandons
the rest of the loop (the `return` on line 161); otherwise an unpassed
pipe whose trailing edge is left of `bird.x` scores one point, is marked
passed, and the best score is updated and persisted when exceeded. -/
def collideScore (b : Bird) (bh : ℚ) : List Pipe → ℕ → ℤ → Option ℤ → ScoreRes
  | [], sc, bs, prs => ⟨[], sc, bs, prs, false⟩
  | p :: rest, sc, bs, prs =>
    if hitPipe b bh p then ⟨p :: rest, sc, bs, prs, true⟩
    else if p.passed = false ∧ b.x > p.x + PIPE_WIDTH then
      let sc' := sc + 1
      let bs' := if (sc' : ℤ) > bs then (sc' : ℤ) else bs
      let prs' := if (sc' : ℤ) > bs then some (sc' : ℤ) else prs
      let R := collideScore b bh rest sc' bs' prs'
      ⟨{ p with passed := true } :: R.pipes, R.score, R.best, R.persisted, R.over⟩
    else
      let R := collideScore b bh rest sc bs prs
      ⟨p :: R.pipes, R.score, R.best, R.persisted, R.over⟩

/-- Euler integration step (source lines 122-123): `vy += GRAVITY`
followed by `y += vy` with the updated velocity. -/
def integrate (b : Bird) : Bird :=
  { b with vy := b.vy + GRAVITY, y := b.y + (b.vy + GRAVITY) }

/-- Ceiling clamp (source line 132). -/
def clampCeil (b : Bird) : Bird :=
  if b.y < 0 then { b with y := 0 } else b

/-- Pipe advance (source lines 135-137). -/
def movePipe (p : Pipe) : Pipe := { p with x := p.x - GAME_SPEED }

/-- Off-screen cull (source lines 139-141): at most the front pipe is
removed, and only when its trailing edge is strictly left of 0. -/
def cullPipes : List Pipe → List Pipe
  | [] => []
  | p :: rest => if p.x + PIPE_WIDTH < 0 then rest else p :: rest

/-- Spawn condition (source line 143): the sequence is empty or the last
pipe's `x` is strictly left of `baseWidth - PIPE_INTERVAL`. -/
def spawnNeeded (ps : List Pipe) (bw : ℚ) : Bool :=
  match ps.getLast? with
  | none => true
  | some p => decide (p.x < bw - PIPE_INTERVAL)

/-- The pipe built by `addPipe` (source lines 98-107) for random draw
`r`: `x = baseWidth`, `topH = Math.floor(r * (MAX - MIN)) + MIN`. -/
def newPipe (bw r : ℚ) : Pipe :=
  { x := bw, width := PIPE_WIDTH,
    height := ((⌊r * (MAX_PIPE_HEIGHT - MIN_PIPE_HEIGHT)⌋ : ℤ) : ℚ) + MIN_PIPE_HEIGHT,
    gap := PIPE_GAP, passed := false }

/-- Spawn step of `update` (source lines 142-145). -/
def spawnStep (ps : List Pipe) (bw r : ℚ) : List Pipe :=
  if spawnNeeded ps bw then ps ++ [newPipe bw r] else ps

/-- One simulation tick body (source lines 120-174, `update`): integrate
the bird; on ground contact clamp `y`, end the game (which cancels the
scheduled frame) and skip everything else; otherwise clamp the ceiling,
advance, cull and spawn pipes, then run the collision-and-scoring
loop. -/
def update (w : GState) (r : ℚ) : GState :=
  let b := integrate w.bird
  if b.y + BIRD_SIZE > w.baseHeight - GROUND_HEIGHT then
    { w with bird := { b with y := w.baseHeight - GROUND_HEIGHT - BIRD_SIZE },
             gameOver := true, scheduled := false }
  else
    let b2 := clampCeil b
    let ps := spawnStep (cullPipes (w.pipes.map movePipe)) w.baseWidth r
    let R := collideScore b2 w.baseHeight ps w.score w.bestScore w.persisted
    { w with bird := b2, pipes := R.pipes, score := R.score, bestScore := R.best,
             persisted := R.persisted, gameOver := w.gameOver || R.over,
             scheduled := if R.over then false else w.scheduled }

/-- The frame callback (source lines 109-118): bail out while paused,
run `update`, and re-request a frame unless the game ended. -/
def animate (w : GState) (r : ℚ) : GState :=
  if w.gamePaused then w
  else
    let w2 := update w r
    if w2.gameOver then w2 else { w2 with scheduled := true }

/-- A requested animation frame fires: the pending request is consumed
and `animate` runs; nothing happens when no frame is pending. -/
def tick (w : GState) (r : ℚ) : GState :=
  if w.scheduled then animate { w with scheduled := false } r else w

/-- Flap handler (source lines 79-83). -/
def flap (w : GState) : GState :=
  if w.gameStarted = false then w
  else if w.gameOver then w
  else { w with bird := { w.bird with vy := JUMP } }

/-- `addPipe` as a state operation (source lines 98-107). -/
def addPipe (w : GState) (r : ℚ) : GState :=
  { w with pipes := w.pipes ++ [newPipe w.baseWidth r] }

/-- `resetGame` (source lines 85-96): clear pipes, zero the score,
re-create the bird, then add the first pipe. -/
def resetGame (w : GState) (r : ℚ) : GState :=
  addPipe { w with pipes := [], score := 0, bird := initBird w.baseHeight } r

/-- `startGame` (source lines 54-60): reset, raise `gameStarted`, clear
`gameOver` and `gamePaused`, then call `animate` (which runs one tick
synchronously and reschedules).  `r1` feeds the reset's pipe, `r2` the
immediate tick. -/
def startGame (w : GState) (r1 r2 : ℚ) : GState :=
  let w1 := resetGame w r1
  animate { w1 with gameStarted := true, gameOver := false, gamePaused := false } r2

/-- `togglePause` (source lines 64-73): ignored unless started and not
over; pausing cancels the pending frame, resuming clears the flag and
calls `animate`. -/
def togglePause (w : GState) (r : ℚ) : GState :=
  if w.gameStarted = false then w
  else if w.gameOver then w
  else if w.gamePaused then animate { w with gamePaused := false } r
  else { w with gamePaused := true, scheduled := false }

/-- `handleStartInput` (source lines 354-362): routing of the primary
pointer input (click / touch). -/
def handleStartInput (w : GState) (r1 r2 : ℚ) : GState :=
  if w.gameStarted = false ∨ (w.gameOver ∧ w.gamePaused = false) then startGame w r1 r2
  else if w.gamePaused then togglePause w r1
  else flap w

/-- Routing of the Space / ArrowUp key (source lines 365-375). -/
def keyPrimary (w : GState) (r1 r2 : ℚ) : GState :=
  if w.gameStarted = false ∨ w.gameOver = true then startGame w r1 r2
  else if w.gamePaused then togglePause w r1
  else flap w

/-- One user-or-scheduler event, with its random draws. -/
inductive Op where
  | start (r1 r2 : ℚ)
  | pause (r : ℚ)
  | flapOp
  | tickOp (r : ℚ)
deriving DecidableEq

/-- Apply one event to the state. -/
def applyOp (w : GState) : Op → GState
  | .start r1 r2 => startGame w r1 r2
  | .pause r => togglePause w r
  | .flapOp => flap w
  | .tickOp r => tick w r

/-- Apply a sequence of events left to right. -/
def applyOps (w : GState) (ops : List Op) : GState := ops.foldl applyOp w

/-- States reachable from some mount-time state by `startGame`,
`togglePause`, `flap` and animation-frame ticks. -/
inductive Reachable : GState → Prop
  | init (bw bh : ℚ) (b0 : ℤ) (p0 : Option ℤ) : Reachable (initState bw bh b0 p0)
  | start (w : GState) (r1 r2 : ℚ) : Reachable w → Reachable (startGame w r1 r2)
  | pause (w : GState) (r : ℚ) : Reachable w → Reachable (togglePause w r)
  | doFlap (w : GState) : Reachable w → Reachable (flap w)
  | doTick (w : GState) (r : ℚ) : Reachable w → Reachable (tick w r)

/-- The four logical game states of the specification. -/
inductive GameState where
  | notStarted
  | running
  | paused
  | over
deriving DecidableEq

/-- Flag assignment realizing each logical game state. -/
def stateFlags : GameState → Bool × Bool × Bool
  | .notStarted => (false, false, false)
  | .running => (true, false, false)
  | .paused => (true, true, false)
  | .over => (true, false, true)

/-- A JavaScript number that is either NaN or an integer (the only
values `parseInt` produces on the strings this component stores). -/
inductive JSNum where
  | nan : JSNum
  | num : ℤ → JSNum
deriving DecidableEq

/-- Whitespace skipped by `parseInt`. -/
def isWs (c : Char) : Bool :=
  c = ' ' || c = '\t' || c = '\n' || c = '\r' || c = '\x0b' || c = '\x0c'

/-- Value of one digit character under the given radix. -/
def digitVal (base : ℕ) (c : Char) : Option ℕ :=
  let v : Option ℕ :=
    if '0' ≤ c ∧ c ≤ '9' then some (c.toNat - 48)
    else if 'a' ≤ c ∧ c ≤ 'f' then some (c.toNat - 87)
    else if 'A' ≤ c ∧ c ≤ 'F' then some (c.toNat - 55)
    else none
  match v with
  | some d => if d < base then some d else none
  | none => none

/-- Value of the maximal digit prefix of a character list. -/
def digitsVal (base : ℕ) : List Char → ℕ → ℕ
  | [], acc => acc
  | c :: cs, acc =>
    match digitVal base c with
    | some d => digitsVal base cs (acc * base + d)
    | none => acc

/-- JavaScript `parseInt(s)` with no radix argument: skip whitespace,
read an optional sign, switch to radix 16 after a `0x`/`0X` prefix,
then take the maximal digit prefix; NaN when no digit follows. -/
def jsParseInt (s : String) : JSNum :=
  let cs := s.toList.dropWhile isWs
  let sign : ℤ := if cs.head? = some '-' then -1 else 1
  let cs2 := match cs with
    | '-' :: t => t
    | '+' :: t => t
    | _ => cs
  let p := match cs2 with
    | '0' :: 'x' :: t => ((16 : ℕ), t)
    | '0' :: 'X' :: t => ((16 : ℕ), t)
    | _ => ((10 : ℕ), cs2)
  match p.2 with
  | [] => JSNum.nan
  | c :: _ =>
    match digitVal p.1 c with
    | none => JSNum.nan
    | some _ => JSNum.num (sign * (digitsVal p.1 p.2 0 : ℤ))

/-- Best-score load on mount (source lines 409-410):
`bestScore = raw ? parseInt(raw) : 0`, where `raw` is the stored string
or null, and null and the empty string are falsy. -/
def loadBestScore (raw : Option String) : JSNum :=
  match raw with
  | none => JSNum.num 0
  | some s => if s = "" then JSNum.num 0 else jsParseInt s

/-- A pipe with its scoring flag erased; two pipes agree under
`stripPass` exactly when they agree on geometry. -/
def stripPass (p : Pipe) : Pipe := { p with passed := false }

end Flappy

unseal Rat.add Rat.mul Rat.sub Rat.inv Rat.ofScientific

namespace Flappy

/-- Flag combinations maintained by every operation: an unstarted
session has no other flag raised and no pending frame, a pending frame
implies a started session, and paused-and-over never coexist. -/
def InvFlags (w : GState) : Prop :=
  (w.gameStarted = false →
    w.gamePaused = false ∧ w.gameOver = false ∧ w.scheduled = false)
  ∧ ¬(w.gamePaused = true ∧ w.gameOver = true)

/-- Pairing a list with itself yields only diagonal pairs. -/
lemma zip_self_mem (l : List Pipe) : ∀ q ∈ l.zip l, q.2 = q.1 := by
  induction l with
  | nil => intro q hq; simp at hq
  | cons p t ih =>
    intro q hq
    rw [List.zip_cons_cons, List.mem_cons] at hq
    rcases hq with hq | hq
    · subst hq; rfl
    · exact ih q hq

/-- No diagonal pair records a fresh pass. -/
lemma zip_self_countP (l : List Pipe) :
    (l.zip l).countP (fun q => !q.1.passed && q.2.passed) = 0 := by
  induction l with
  | nil => rfl
  | cons p t ih =>
    simp only [List.zip_cons_cons, List.countP_cons, ih]
    cases hp : p.passed <;> simp [hp]

/-- The scoring loop returns as many pipes as it was given. -/
lemma collideScore_length (b : Bird) (bh : ℚ) (l : List Pipe) (sc : ℕ)
    (bs : ℤ) (prs : Option ℤ) :
    (collideScore b bh l sc bs prs).pipes.length = l.length := by
  induction l generalizing sc bs prs with
  | nil => rfl
  | cons p t ih =>
    by_cases hhit : hitPipe b bh p
    · simp [collideScore, hhit]
    · by_cases hpass : p.passed = false ∧ b.x > p.x + PIPE_WIDTH
      · simp [collideScore, hhit, hpass, ih]
      · simp [collideScore, hhit, hpass, ih]

/-- The scoring loop only toggles `passed` flags: geometry is kept. -/
lemma collideScore_strip (b : Bird) (bh : ℚ) (l : List Pipe) (sc : ℕ)
    (bs : ℤ) (prs : Option ℤ) :
    (collideScore b bh l sc bs prs).pipes.map stripPass = l.map stripPass := by
  induction l generalizing sc bs prs with
  | nil => rfl
  | cons p t ih =>
    by_cases hhit : hitPipe b bh p
    · simp [collideScore, hhit]
    · by_cases hpass : p.passed = false ∧ b.x > p.x + PIPE_WIDTH
      · simp [collideScore, hhit, hpass, ih, stripPass]
      · simp [collideScore, hhit, hpass, ih]

/-- The score never drops inside the scoring loop. -/
lemma collideScore_score_le (b : Bird) (bh : ℚ) (l : List Pipe) (sc : ℕ)
    (bs : ℤ) (prs : Option ℤ) :
    sc ≤ (collideScore b bh l sc bs prs).score := by
  induction l generalizing sc bs prs with
  | nil => exact le_refl _
  | cons p t ih =>
    by_cases hhit : hitPipe b bh p
    · simp [collideScore, hhit]
    · by_cases hpass : p.passed = false ∧ b.x > p.x + PIPE_WIDTH
      · simp only [collideScore, hhit, hpass, if_true, if_false, Bool.false_eq_true]
        exact le_trans (Nat.le_succ sc) (ih (sc + 1) _ _)
      · simp only [collideScore, hhit, hpass, if_true, if_false, Bool.false_eq_true]
        exact ih sc bs prs

/-- The final score is the initial score plus one per pipe whose
`passed` flag flipped from false to true during the loop. -/
lemma collideScore_score_eq (b : Bird) (bh : ℚ) (l : List Pipe) (sc : ℕ)
    (bs : ℤ) (prs : Option ℤ) :
    (collideScore b bh l sc bs prs).score
      = sc + (l.zip (collideScore b bh l sc bs prs).pipes).countP
          (fun q => !q.1.passed && q.2.passed) := by
  induction l generalizing sc bs prs with
  | nil => rfl
  | cons p t ih =>
    by_cases hhit : hitPipe b bh p
    · rw [collideScore, if_pos hhit]
      dsimp only
      rw [zip_self_countP]
      omega
    · by_cases hpass : p.passed = false ∧ b.x > p.x + PIPE_WIDTH
      · rw [collideScore, if_neg hhit, if_pos hpass]
        dsimp only
        rw [List.zip_cons_cons, List.countP_cons, ih]
        simp only [hpass.1]
        simp
        omega
      · rw [collideScore, if_neg hhit, if_neg hpass]
        dsimp only
        rw [List.zip_cons_cons, List.countP_cons, ih]
        cases hp : p.passed <;> simp [hp]

/-- Pointwise effect of the loop on each pipe: an already-passed pipe
is returned unchanged, and any change is exactly the `passed` flag
turning true under the pass condition. -/
lemma collideScore_mem (b : Bird) (bh : ℚ) (l : List Pipe) (sc : ℕ)
    (bs : ℤ) (prs : Option ℤ) :
    ∀ q ∈ l.zip (collideScore b bh l sc bs prs).pipes,
      (q.1.passed = true → q.2 = q.1)
      ∧ (q.2 = q.1 ∨ (q.1.passed = false ∧ q.2 = { q.1 with passed := true }
          ∧ b.x > q.1.x + PIPE_WIDTH)) := by
  induction l generalizing sc bs prs with
  | nil => intro q hq; simp [collideScore] at hq
  | cons p t ih =>
    by_cases hhit : hitPipe b bh p
    · intro q hq
      rw [collideScore, if_pos hhit] at hq
      have h2 := zip_self_mem (p :: t) q hq
      exact ⟨fun _ => h2, Or.inl h2⟩
    · by_cases hpass : p.passed = false ∧ b.x > p.x + PIPE_WIDTH
      · intro q hq
        rw [collideScore, if_neg hhit, if_pos hpass] at hq
        dsimp only at hq
        rw [List.zip_cons_cons, List.mem_cons] at hq
        rcases hq with rfl | hq
        · refine ⟨fun hp => ?_, Or.inr ⟨hpass.1, rfl, hpass.2⟩⟩
          rw [hpass.1] at hp; exact absurd hp (by simp)
        · exact ih _ _ _ q hq
      · intro q hq
        rw [collideScore, if_neg hhit, if_neg hpass] at hq
        dsimp only at hq
        rw [List.zip_cons_cons, List.mem_cons] at hq
        rcases hq with rfl | hq
        · exact ⟨fun _ => rfl, Or.inl rfl⟩
        · exact ih _ _ _ q hq

/-- When the loop finishes without a collision, `passed` flags end up
exactly at `old passed OR pass-condition`. -/
lemma collideScore_noover (b : Bird) (bh : ℚ) (l : List Pipe) (sc : ℕ)
    (bs : ℤ) (prs : Option ℤ) :
    (collideScore b bh l sc bs prs).over = false →
    ∀ q ∈ l.zip (collideScore b bh l sc bs prs).pipes,
      q.2.passed = (q.1.passed || decide (b.x > q.1.x + PIPE_WIDTH)) := by
  induction l generalizing sc bs prs with
  | nil => intro _ q hq; simp [collideScore] at hq
  | cons p t ih =>
    by_cases hhit : hitPipe b bh p
    · intro hov
      rw [collideScore, if_pos hhit] at hov
      simp at hov
    · by_cases hpass : p.passed = false ∧ b.x > p.x + PIPE_WIDTH
      · intro hov q hq
        rw [collideScore, if_neg hhit, if_pos hpass] at hov hq
        dsimp only at hov hq
        rw [List.zip_cons_cons, List.mem_cons] at hq
        rcases hq with rfl | hq
        · simp [hpass.1, decide_eq_true hpass.2]
        · exact ih _ _ _ hov q hq
      · intro hov q hq
        rw [collideScore, if_neg hhit, if_neg hpass] at hov hq
        dsimp only at hov hq
        rw [List.zip_cons_cons, List.mem_cons] at hq
        rcases hq with rfl | hq
        · cases hp : p.passed
          · have hc : ¬(b.x > p.x + PIPE_WIDTH) := fun hc => hpass ⟨hp, hc⟩
            simp [hp, hc]
          · simp [hp]
        · exact ih _ _ _ hov q hq

/-- The final best score: set to the final score exactly when the score
grew this pass and came to exceed the initial best. -/
lemma collideScore_best (b : Bird) (bh : ℚ) (l : List Pipe) (sc : ℕ)
    (bs : ℤ) (prs : Option ℤ) :
    (collideScore b bh l sc bs prs).best
      = if sc < (collideScore b bh l sc bs prs).score
          ∧ bs < ((collideScore b bh l sc bs prs).score : ℤ)
        then ((collideScore b bh l sc bs prs).score : ℤ) else bs := by
  induction l generalizing sc bs prs with
  | nil => simp [collideScore]
  | cons p t ih =>
    by_cases hhit : hitPipe b bh p
    · rw [collideScore, if_pos hhit]
      dsimp only
      simp
    · by_cases hpass : p.passed = false ∧ b.x > p.x + PIPE_WIDTH
      · rw [collideScore, if_neg hhit, if_pos hpass]
        dsimp only
        by_cases hA : ((sc + 1 : ℕ) : ℤ) > bs
        · simp only [if_pos hA]
          have hn := collideScore_score_le b bh t (sc + 1)
            ((sc + 1 : ℕ) : ℤ) (some ((sc + 1 : ℕ) : ℤ))
          rw [ih]
          split_ifs <;> omega
        · simp only [if_neg hA]
          have hn := collideScore_score_le b bh t (sc + 1) bs prs
          rw [ih]
          split_ifs <;> omega
      · rw [collideScore, if_neg hhit, if_neg hpass]
        dsimp only
        exact ih sc bs prs

/-- The persisted entry: rewritten with the final score exactly when the
best score was, untouched otherwise. -/
lemma collideScore_pers (b : Bird) (bh : ℚ) (l : List Pipe) (sc : ℕ)
    (bs : ℤ) (prs : Option ℤ) :
    (collideScore b bh l sc bs prs).persisted
      = if sc < (collideScore b bh l sc bs prs).score
          ∧ bs < ((collideScore b bh l sc bs prs).score : ℤ)
        then some ((collideScore b bh l sc bs prs).score : ℤ) else prs := by
  induction l generalizing sc bs prs with
  | nil => simp [collideScore]
  | cons p t ih =>
    by_cases hhit : hitPipe b bh p
    · rw [collideScore, if_pos hhit]
      dsimp only
      simp
    · by_cases hpass : p.passed = false ∧ b.x > p.x + PIPE_WIDTH
      · rw [collideScore, if_neg hhit, if_pos hpass]
        dsimp only
        by_cases hA : ((sc + 1 : ℕ) : ℤ) > bs
        · simp only [if_pos hA]
          have hn := collideScore_score_le b bh t (sc + 1)
            ((sc + 1 : ℕ) : ℤ) (some ((sc + 1 : ℕ) : ℤ))
          rw [ih]
          split_ifs <;> first | rfl | omega | (congr 1; omega)
        · simp only [if_neg hA]
          have hn := collideScore_score_le b bh t (sc + 1) bs prs
          rw [ih]
          split_ifs <;> first | rfl | omega
      · rw [collideScore, if_neg hhit, if_neg hpass]
        dsimp only
        exact ih sc bs prs

/-- A tick never touches the `gameStarted` flag. -/
lemma update_gameStarted (w : GState) (r : ℚ) :
    (update w r).gameStarted = w.gameStarted := by
  rw [update]; dsimp only; split <;> rfl

/-- A tick never touches the `gamePaused` flag. -/
lemma update_gamePaused (w : GState) (r : ℚ) :
    (update w r).gamePaused = w.gamePaused := by
  rw [update]; dsimp only; split <;> rfl

/-- A tick can only lower the `scheduled` flag (cancel a frame). -/
lemma update_scheduled (w : GState) (r : ℚ) :
    (update w r).scheduled = true → w.scheduled = true := by
  rw [update]; dsimp only
  split
  · intro h; exact absurd h (by simp)
  · dsimp only; split_ifs <;> simp_all

/-- A tick never lowers the best score. -/
lemma update_best_le (w : GState) (r : ℚ) :
    w.bestScore ≤ (update w r).bestScore := by
  rw [update]; dsimp only
  split
  · exact le_refl _
  · dsimp only
    rw [collideScore_best]
    split_ifs <;> omega

/-- The frame callback preserves `gameStarted` and `gamePaused`. -/
lemma animate_flags (w : GState) (r : ℚ) :
    (animate w r).gameStarted = w.gameStarted
    ∧ (animate w r).gamePaused = w.gamePaused := by
  rw [animate]
  split
  · exact ⟨rfl, rfl⟩
  · dsimp only
    split
    · exact ⟨update_gameStarted w r, update_gamePaused w r⟩
    · exact ⟨update_gameStarted w r, update_gamePaused w r⟩

/-- The frame callback never lowers the best score. -/
lemma animate_best_le (w : GState) (r : ℚ) :
    w.bestScore ≤ (animate w r).bestScore := by
  rw [animate]
  split
  · exact le_refl _
  · dsimp only
    split
    · exact update_best_le w r
    · exact update_best_le w r

/-- Starting a run keeps the best score. -/
lemma startGame_best_le (w : GState) (r1 r2 : ℚ) :
    w.bestScore ≤ (startGame w r1 r2).bestScore := by
  rw [startGame]
  exact animate_best_le _ r2

/-- No single event lowers the best score. -/
lemma applyOp_best_le (w : GState) (op : Op) :
    w.bestScore ≤ (applyOp w op).bestScore := by
  cases op with
  | start r1 r2 => exact startGame_best_le w r1 r2
  | pause r =>
    rw [applyOp, togglePause]
    split_ifs
    · exact le_refl _
    · exact le_refl _
    · exact animate_best_le _ r
    · exact le_refl _
  | flapOp =>
    rw [applyOp, flap]
    split_ifs <;> exact le_refl _
  | tickOp r =>
    rw [applyOp, tick]
    split_ifs
    · exact animate_best_le _ r
    · exact le_refl _

/-- No event sequence lowers the best score. -/
lemma applyOps_best_le (w : GState) (ops : List Op) :
    w.bestScore ≤ (applyOps w ops).bestScore := by
  induction ops generalizing w with
  | nil => exact le_refl _
  | cons op t ih =>
    exact le_trans (applyOp_best_le w op) (ih (applyOp w op))

/-- Started-and-unpaused states satisfy the flag invariant outright. -/
lemma invFlags_of_flags (w : GState) (h1 : w.gameStarted = true)
    (h2 : w.gamePaused = false) : InvFlags w := by
  constructor
  · intro h; rw [h1] at h; exact absurd h (by simp)
  · intro h; rw [h2] at h; exact absurd h.1 (by simp)

/-- Calling the frame callback on a started, unpaused state lands in the
flag invariant. -/
lemma invFlags_animate (v : GState) (r : ℚ) (h1 : v.gameStarted = true)
    (h2 : v.gamePaused = false) : InvFlags (animate v r) := by
  have hf := animate_flags v r
  exact invFlags_of_flags _ (hf.1.trans h1) (hf.2.trans h2)

/-- Every reachable state satisfies the flag invariant. -/
lemma reach_inv (w : GState) (h : Reachable w) : InvFlags w := by
  induction h with
  | init bw bh b0 p0 =>
    exact ⟨fun _ => ⟨rfl, rfl, rfl⟩, by simp [initState]⟩
  | start w r1 r2 _ _ =>
    rw [startGame]
    exact invFlags_animate _ r2 rfl rfl
  | pause w r _ ih =>
    rw [togglePause]
    split_ifs with h1 h2 h3
    · exact ih
    · exact ih
    · have hs : w.gameStarted = true := by
        cases hst : w.gameStarted
        · exact absurd hst h1
        · rfl
      exact invFlags_animate _ r hs rfl
    · constructor
      · intro hst; exact absurd hst h1
      · intro hc
        cases hov : w.gameOver
        · rw [hov] at hc; exact absurd hc.2 (by simp)
        · exact h2 hov
  | doFlap w _ ih =>
    rw [flap]
    split_ifs with h1 h2
    · exact ih
    · exact ih
    · exact ⟨fun hst => ⟨(ih.1 hst).1, (ih.1 hst).2.1, (ih.1 hst).2.2⟩, ih.2⟩
  | doTick w r _ ih =>
    rw [tick]
    split_ifs with h1
    · by_cases h2 : w.gamePaused = true
      · rw [animate]
        rw [if_pos h2]
        exact ⟨fun hst => ⟨(ih.1 hst).1, (ih.1 hst).2.1, rfl⟩, ih.2⟩
      · have hs : w.gameStarted = true := by
          cases hst : w.gameStarted
          · exact absurd h1 (by simp [(ih.1 hst).2.2])
          · rfl
        have hp : w.gamePaused = false := by
          cases hpp : w.gamePaused
          · rfl
          · exact absurd hpp h2
        exact invFlags_animate _ r hs hp
    · exact ih

/-- A concrete running scheduled state: bird mid-air at rest, one pipe
about to be passed and one far right. -/
def wRun : GState :=
  { gameStarted := true, gamePaused := false, gameOver := false,
    scheduled := true, score := 0, bestScore := 0, persisted := none,
    pipes := [⟨3, 52, 100, 114, false⟩, ⟨399, 52, 100, 114, false⟩],
    bird := ⟨56, 300, 0, 36, 36⟩, baseWidth := 400, baseHeight := 600 }

/-- A concrete running state with the bird about to hit the ground. -/
def wLow : GState := { wRun with bird := ⟨56, 550, 0, 36, 36⟩ }

/-- A concrete paused mid-run state with nonzero upward-free velocity. -/
def wPausedSt : GState :=
  { wRun with gamePaused := true, scheduled := false,
              bird := ⟨56, 300, 3, 36, 36⟩ }

/-- A concrete game-over state. -/
def wOverSt : GState := { wRun with gameOver := true, scheduled := false }

/-- C1: on a tick whose integrated bird position penetrates the ground
band, `y` is clamped to exactly `worldHeight - groundHeight - birdHeight`,
the state becomes game over, the pending frame is cancelled and all other
tick work is skipped (pipes, score, best score, persisted entry are
untouched); and in a world at least as tall as bird plus ground, any tick
that leaves the game running keeps `bird.y` at or below that bound. -/
theorem c1_ground_collision (w : GState) (r : ℚ) :
    ((integrate w.bird).y + BIRD_SIZE > w.baseHeight - GROUND_HEIGHT →
      update w r = { w with
        bird := { integrate w.bird with
          y := w.baseHeight - GROUND_HEIGHT - BIRD_SIZE },
        gameOver := true, scheduled := false })
    ∧ (BIRD_SIZE + GROUND_HEIGHT ≤ w.baseHeight →
      (update w r).gameOver = false →
      (update w r).bird.y ≤ w.baseHeight - GROUND_HEIGHT - BIRD_SIZE) := by
  constructor
  · intro h
    rw [update]
    dsimp only
    rw [if_pos h]
  · intro hwh hov
    rw [update] at hov ⊢
    dsimp only at hov ⊢
    by_cases h : (integrate w.bird).y + BIRD_SIZE > w.baseHeight - GROUND_HEIGHT
    · rw [if_pos h] at hov
      exact absurd hov (by simp)
    · rw [if_neg h] at hov ⊢
      dsimp only at hov ⊢
      rw [clampCeil]
      push_neg at h
      split_ifs with h2
      · dsimp only
        linarith
      · linarith

/-- C1 witness: a bird at `y = 550` integrates to `550.55`, penetrates the
ground band of the 400 by 600 world and is clamped to `510` with the run
ended; a bird at `y = 300` ticks to `300.55`, well above the bound. -/
theorem c1_witness :
    update wLow 0 = { wLow with
      bird := { integrate wLow.bird with y := 600 - GROUND_HEIGHT - BIRD_SIZE },
      gameOver := true, scheduled := false }
    ∧ (update wRun 0).bird.y ≤ 600 - GROUND_HEIGHT - BIRD_SIZE := by
  constructor
  · exact (c1_ground_collision wLow 0).1 (by decide)
  · exact (c1_ground_collision wRun 0).2 (by decide) (by decide)

/-- C2: the collision predicate returns true iff the four strict
inequalities hold; it is symmetric in the two boxes; and boxes that are
exactly edge-adjacent do not collide. -/
theorem c2_isColliding_spec (x1 y1 w1 h1 x2 y2 w2 h2 : ℚ) :
    (isColliding x1 y1 w1 h1 x2 y2 w2 h2 = true ↔
      (x1 < x2 + w2 ∧ x1 + w1 > x2 ∧ y1 < y2 + h2 ∧ y1 + h1 > y2))
    ∧ isColliding x1 y1 w1 h1 x2 y2 w2 h2 = isColliding x2 y2 w2 h2 x1 y1 w1 h1
    ∧ (x1 + w1 = x2 → isColliding x1 y1 w1 h1 x2 y2 w2 h2 = false) := by
  have hiff : ∀ a b c d e f g h : ℚ,
      isColliding a b c d e f g h = true ↔
        (a < e + g ∧ a + c > e ∧ b < f + h ∧ b + d > f) := by
    intro a b c d e f g h
    simp [isColliding, and_assoc]
  refine ⟨hiff x1 y1 w1 h1 x2 y2 w2 h2, ?_, ?_⟩
  · rw [Bool.eq_iff_iff, hiff, hiff]
    constructor
    · rintro ⟨p1, p2, p3, p4⟩; exact ⟨p2, p1, p4, p3⟩
    · rintro ⟨p1, p2, p3, p4⟩; exact ⟨p2, p1, p4, p3⟩
  · intro he
    simp [isColliding, he]

/-- C2 witness: boxes touching exactly along `x1 + w1 = x2` do not
collide. -/
theorem c2_witness : isColliding 0 0 5 5 5 0 3 3 = false :=
  (c2_isColliding_spec 0 0 5 5 5 0 3 3).2.2 (by decide)

/-- C6 counterexample: `flap` invoked in a reachable Paused state
(started, paused, not over) is not a no-op: it overwrites the bird's
velocity with the jump impulse, so the claim that flap is ignored while
Paused fails on the code. -/
theorem c6_counterexample :
    wPausedSt.gameStarted = true ∧ wPausedSt.gamePaused = true
    ∧ wPausedSt.gameOver = false ∧ flap wPausedSt ≠ wPausedSt
    ∧ wPausedSt.bird.vy = 3 ∧ (flap wPausedSt).bird.vy = JUMP := by decide

/-- C6 amended: `flap` sets `bird.vy` to exactly the jump impulse -8.5,
overriding any prior velocity and changing nothing else, whenever the game
is started and not over — that is, in Running and also in Paused — and is
a silent no-op in NotStarted and GameOver. -/
theorem c6_flap_amended (w : GState) :
    (w.gameStarted = true → w.gameOver = false →
      flap w = { w with bird := { w.bird with vy := JUMP } })
    ∧ (w.gameStarted = false ∨ w.gameOver = true → flap w = w) := by
  constructor
  · intro h1 h2
    rw [flap, if_neg (by simp [h1]), if_neg (by simp [h2])]
  · intro h
    rw [flap]
    split_ifs with g1 g2
    · rfl
    · rfl
    · rcases h with h | h
      · exact absurd h g1
      · exact absurd h g2

/-- C6 witness: flapping while running overwrites `vy = 0` with -8.5, and
flapping after game over changes nothing. -/
theorem c6_witness :
    flap wRun = { wRun with bird := { wRun.bird with vy := JUMP } }
    ∧ flap wOverSt = wOverSt :=
  ⟨(c6_flap_amended wRun).1 rfl rfl, (c6_flap_amended wOverSt).2 (Or.inr rfl)⟩

/-- C8: pausing while running mutates only the pause flag and the frame
handle; while paused, any number of frame events leaves the state fixed;
and resuming runs the frame callback from exactly the frozen world — when
a frame was pending at pause time, pause-then-resume equals the single
tick that frame would have performed, so no ticks are replayed or
skipped. -/
theorem c8_pause_freeze (w : GState) (r r' : ℚ)
    (h1 : w.gameStarted = true) (h2 : w.gameOver = false)
    (h3 : w.gamePaused = false) :
    togglePause w r = { w with gamePaused := true, scheduled := false }
    ∧ (∀ rs : List ℚ, rs.foldl tick (togglePause w r) = togglePause w r)
    ∧ togglePause (togglePause w r) r' = animate { w with scheduled := false } r'
    ∧ (w.scheduled = true → togglePause (togglePause w r) r' = tick w r') := by
  have hp : togglePause w r = { w with gamePaused := true, scheduled := false } := by
    rw [togglePause, if_neg (by simp [h1]), if_neg (by simp [h2]),
      if_neg (by simp [h3])]
  have hfix : ∀ r'' : ℚ,
      tick { w with gamePaused := true, scheduled := false } r''
        = { w with gamePaused := true, scheduled := false } := by
    intro r''
    rw [tick, if_neg (by simp)]
  have hres : togglePause { w with gamePaused := true, scheduled := false } r'
      = animate { w with scheduled := false } r' := by
    rw [togglePause, if_neg (by simp [h1]), if_neg (by simp [h2]),
      if_pos (by simp)]
    congr 1
    rw [h3]
  refine ⟨hp, ?_, ?_, ?_⟩
  · intro rs
    rw [hp]
    induction rs with
    | nil => rfl
    | cons a t ih => rw [List.foldl_cons, hfix a, ih]
  · rw [hp, hres]
  · intro hs
    rw [hp, hres, tick, if_pos hs]

/-- C8 witness: pausing the concrete running state, feeding it two frame
events, and resuming reproduces exactly the tick the pending frame would
have run. -/
theorem c8_witness :
    togglePause wRun 0 = { wRun with gamePaused := true, scheduled := false }
    ∧ ([1/2, 1/3] : List ℚ).foldl tick (togglePause wRun 0) = togglePause wRun 0
    ∧ togglePause (togglePause wRun 0) (1/4) = tick wRun (1/4) := by
  have h := c8_pause_freeze wRun 0 (1/4) rfl rfl rfl
  exact ⟨h.1, h.2.1 [1/2, 1/3], h.2.2.2 rfl⟩

/-- C3: per tick the collision-and-scoring loop keeps the pipe count, adds
exactly one point per pipe whose `passed` flag flips false-to-true this
tick, returns every already-passed pipe completely unchanged (so each pipe
scores at most once and is never re-scored later — culling bypasses this
loop entirely), flips a flag only when the bird's leading edge is strictly
past the pipe's trailing edge, and — on any tick the loop finishes without
a collision — leaves each flag at exactly `old OR (bird.x > pipe.x +
pipe width)`, so the flip happens exactly on the first tick reaching the
scoring phase on which that condition holds. -/
theorem c3_scoring (b : Bird) (bh : ℚ) (l : List Pipe) (sc : ℕ) (bs : ℤ)
    (prs : Option ℤ) :
    (collideScore b bh l sc bs prs).pipes.length = l.length
    ∧ (collideScore b bh l sc bs prs).score
        = sc + (l.zip (collideScore b bh l sc bs prs).pipes).countP
            (fun q => !q.1.passed && q.2.passed)
    ∧ (∀ q ∈ l.zip (collideScore b bh l sc bs prs).pipes,
        (q.1.passed = true → q.2 = q.1)
        ∧ (q.2 = q.1 ∨ (q.1.passed = false ∧ q.2 = { q.1 with passed := true }
            ∧ b.x > q.1.x + PIPE_WIDTH)))
    ∧ ((collideScore b bh l sc bs prs).over = false →
        ∀ q ∈ l.zip (collideScore b bh l sc bs prs).pipes,
          q.2.passed = (q.1.passed || decide (b.x > q.1.x + PIPE_WIDTH))) :=
  ⟨collideScore_length b bh l sc bs prs, collideScore_score_eq b bh l sc bs prs,
   collideScore_mem b bh l sc bs prs, collideScore_noover b bh l sc bs prs⟩

/-- Bird used in the C3 witness. -/
def c3Bird : Bird := ⟨56, 300, 0, 36, 36⟩

/-- Pipes used in the C3 witness: one unpassed pipe just cleared, one
already-passed pipe well ahead. -/
def c3Pipes : List Pipe := [⟨3, 52, 100, 114, false⟩, ⟨200, 52, 100, 114, true⟩]

/-- C3 witness: on the concrete list the loop scores exactly one point,
returns the already-passed pipe untouched, and marks the cleared pipe by
the passed-OR-condition rule. -/
theorem c3_witness :
    (collideScore c3Bird 600 c3Pipes 0 0 none).score = 0 + 1
    ∧ ((⟨200, 52, 100, 114, true⟩ : Pipe), (⟨200, 52, 100, 114, true⟩ : Pipe)).2
        = (⟨200, 52, 100, 114, true⟩ : Pipe)
    ∧ ((⟨3, 52, 100, 114, false⟩ : Pipe),
        (⟨3, 52, 100, 114, true⟩ : Pipe)).2.passed
        = (((⟨3, 52, 100, 114, false⟩ : Pipe)).passed
            || decide (c3Bird.x > (⟨3, 52, 100, 114, false⟩ : Pipe).x + PIPE_WIDTH)) := by
  have h := c3_scoring c3Bird 600 c3Pipes 0 0 none
  refine ⟨?_, ?_, ?_⟩
  · rw [h.2.1]; decide
  · exact (h.2.2.1 _ (by decide)).1 rfl
  · exact h.2.2.2 (by decide) _ (by decide)

/-- C4: no sequence of start/restart, pause-toggle, flap or frame events
ever lowers the best score, and on any tick on which the score increments
past the best score, the best score is set to that score and the same
value is written to the persisted entry. -/
theorem c4_best_monotone :
    (∀ (w : GState) (ops : List Op), w.bestScore ≤ (applyOps w ops).bestScore)
    ∧ (∀ (w : GState) (r : ℚ), w.score < (update w r).score →
        w.bestScore < ((update w r).score : ℤ) →
        (update w r).bestScore = ((update w r).score : ℤ)
          ∧ (update w r).persisted = some ((update w r).score : ℤ)) := by
  constructor
  · exact applyOps_best_le
  · intro w r hinc hbest
    rw [update] at hinc hbest ⊢
    dsimp only at hinc hbest ⊢
    by_cases h : (integrate w.bird).y + BIRD_SIZE > w.baseHeight - GROUND_HEIGHT
    · rw [if_pos h] at hinc
      exact absurd hinc (by simp)
    · rw [if_neg h] at hinc hbest ⊢
      dsimp only at hinc hbest ⊢
      constructor
      · rw [collideScore_best]
        rw [if_pos ⟨hinc, hbest⟩]
      · rw [collideScore_pers]
        rw [if_pos ⟨hinc, hbest⟩]

/-- C4 witness: one tick of the concrete running state scores a pipe, and
the best score and the persisted entry both become that score. -/
theorem c4_witness :
    (update wRun 0).bestScore = ((update wRun 0).score : ℤ)
    ∧ (update wRun 0).persisted = some ((update wRun 0).score : ℤ) :=
  c4_best_monotone.2 wRun 0 (by decide) (by decide)

/-- C7: a pipe is appended (exactly one, at the tail) iff the sequence is
empty or the last pipe's `x` is strictly left of `worldWidth - 92`; the
appended pipe sits at `x = worldWidth` with width 52, gap 114 and height
`floor(r * (260 - 40)) + 40`, an integer in `[40, 260)` whenever the draw
lies in `[0, 1)`; and on any tick that is not cut off by ground contact
the updated pipe sequence is, apart from `passed` marks, exactly the
moved, culled and spawned sequence. -/
theorem c7_spawn (ps : List Pipe) (bw r : ℚ) (w : GState) :
    (spawnNeeded ps bw = true ↔
      ps = [] ∨ ∃ p, ps.getLast? = some p ∧ p.x < bw - PIPE_INTERVAL)
    ∧ (spawnNeeded ps bw = true → spawnStep ps bw r = ps ++ [newPipe bw r])
    ∧ (spawnNeeded ps bw = false → spawnStep ps bw r = ps)
    ∧ (newPipe bw r).x = bw ∧ (newPipe bw r).width = 52
    ∧ (newPipe bw r).gap = 114 ∧ (newPipe bw r).passed = false
    ∧ (newPipe bw r).height
        = ((⌊r * (MAX_PIPE_HEIGHT - MIN_PIPE_HEIGHT)⌋ : ℤ) : ℚ) + MIN_PIPE_HEIGHT
    ∧ (0 ≤ r → r < 1 →
        40 ≤ (newPipe bw r).height ∧ (newPipe bw r).height < 260)
    ∧ ((integrate w.bird).y + BIRD_SIZE ≤ w.baseHeight - GROUND_HEIGHT →
        (update w r).pipes.map stripPass
          = (spawnStep (cullPipes (w.pipes.map movePipe)) w.baseWidth r).map
              stripPass) := by
  refine ⟨?_, ?_, ?_, rfl, rfl, rfl, rfl, rfl, ?_, ?_⟩
  · rw [spawnNeeded]
    cases hL : ps.getLast? with
    | none =>
      have he : ps = [] := by
        cases ps with
        | nil => rfl
        | cons p t => simp at hL
      simp [he]
    | some p =>
      have hne : ps ≠ [] := by
        intro he; rw [he] at hL; simp at hL
      simp [hne]
  · intro h; simp [spawnStep, h]
  · intro h; simp [spawnStep, h]
  · intro hr0 hr1
    dsimp only [newPipe, MAX_PIPE_HEIGHT, MIN_PIPE_HEIGHT]
    have h0 : (0:ℤ) ≤ ⌊r * ((260 : ℚ) - 40)⌋ :=
      Int.floor_nonneg.mpr (by nlinarith)
    have h1 : ⌊r * ((260 : ℚ) - 40)⌋ < 220 := by
      apply Int.floor_lt.mpr
      push_cast
      nlinarith
    have h0' : (0:ℚ) ≤ ((⌊r * ((260 : ℚ) - 40)⌋ : ℤ) : ℚ) := by exact_mod_cast h0
    have h1' : ((⌊r * ((260 : ℚ) - 40)⌋ : ℤ) : ℚ) < 220 := by exact_mod_cast h1
    constructor
    · linarith
    · linarith
  · intro hng
    rw [update]
    dsimp only
    rw [if_neg (not_lt.mpr hng)]
    dsimp only
    exact collideScore_strip _ _ _ _ _ _

/-- C7 witness: from an empty sequence a pipe spawns at the right edge of
the 400-wide world with in-range height, and a non-ground tick of the
concrete running state carries the move-cull-spawn pipeline result. -/
theorem c7_witness :
    spawnStep [] 400 (1/2) = [] ++ [newPipe 400 (1/2)]
    ∧ 40 ≤ (newPipe 400 (1/2)).height ∧ (newPipe 400 (1/2)).height < 260
    ∧ (update wRun (1/2)).pipes.map stripPass
        = (spawnStep (cullPipes (wRun.pipes.map movePipe)) wRun.baseWidth
            (1/2)).map stripPass := by
  obtain ⟨hA, hB, hC, hD, hE, hF, hG, hH, hI, hJ⟩ := c7_spawn [] 400 (1/2) wRun
  exact ⟨hB (by decide), (hI (by norm_num) (by norm_num)).1,
    (hI (by norm_num) (by norm_num)).2, hJ (by decide)⟩

/-- C10: in every state reachable by start, pause-toggle, flap and frame
events, `gamePaused` and `gameOver` are never both true, and the three
flags together realize only the four logical game states NotStarted,
Running, Paused, GameOver. -/
theorem c10_flag_states (w : GState) (h : Reachable w) :
    ¬(w.gamePaused = true ∧ w.gameOver = true)
    ∧ ∃ s : GameState,
        (w.gameStarted, w.gamePaused, w.gameOver) = stateFlags s := by
  have hi := reach_inv w h
  refine ⟨hi.2, ?_⟩
  cases hst : w.gameStarted
  · have h0 := hi.1 hst
    exact ⟨GameState.notStarted, by rw [h0.1, h0.2.1]; rfl⟩
  · cases hpp : w.gamePaused
    · cases hov : w.gameOver
      · exact ⟨GameState.running, rfl⟩
      · exact ⟨GameState.over, rfl⟩
    · cases hov : w.gameOver
      · exact ⟨GameState.paused, rfl⟩
      · exact absurd ⟨hpp, hov⟩ hi.2

/-- C10 witness: the mount-time state is reachable and realizes the
NotStarted flag assignment. -/
theorem c10_witness :
    ¬((initState 400 600 0 none).gamePaused = true
        ∧ (initState 400 600 0 none).gameOver = true)
    ∧ ∃ s : GameState,
        ((initState 400 600 0 none).gameStarted,
          (initState 400 600 0 none).gamePaused,
          (initState 400 600 0 none).gameOver) = stateFlags s :=
  c10_flag_states _ (Reachable.init 400 600 0 none)

/-- C9: on every reachable state the Space/ArrowUp key resolves to the
same effect as the pointer primary input, and that common resolution is:
start or restart when not started or when over-and-not-paused, resume when
paused, flap otherwise. -/
theorem c9_primary_routing (w : GState) (r1 r2 : ℚ) (h : Reachable w) :
    keyPrimary w r1 r2 = handleStartInput w r1 r2
    ∧ ((w.gameStarted = false ∨ (w.gameOver = true ∧ w.gamePaused = false)) →
        handleStartInput w r1 r2 = startGame w r1 r2)
    ∧ (w.gameStarted = true → w.gamePaused = true →
        handleStartInput w r1 r2 = togglePause w r1)
    ∧ (w.gameStarted = true → w.gamePaused = false → w.gameOver = false →
        handleStartInput w r1 r2 = flap w) := by
  have hi := reach_inv w h
  refine ⟨?_, ?_, ?_, ?_⟩
  · rw [keyPrimary, handleStartInput]
    cases hst : w.gameStarted
    · rw [if_pos (Or.inl rfl), if_pos (Or.inl rfl)]
    · cases hov : w.gameOver
      · rw [if_neg (show ¬((true : Bool) = false ∨ (false : Bool) = true) by simp),
          if_neg (show ¬((true : Bool) = false
            ∨ ((false : Bool) = true ∧ w.gamePaused = false)) by simp)]
      · have hpp : w.gamePaused = false := by
          cases hq : w.gamePaused
          · rfl
          · exact absurd ⟨hq, hov⟩ hi.2
        rw [hpp, if_pos (Or.inr rfl), if_pos (Or.inr ⟨rfl, rfl⟩)]
  · intro hc
    rw [handleStartInput, if_pos hc]
  · intro h1 h2
    rw [handleStartInput, if_neg (by simp [h1, h2]), if_pos h2]
  · intro h1 h2 h3
    rw [handleStartInput, if_neg (by simp [h1, h3]), if_neg (by simp [h2])]

/-- C9 witness: on the reachable mount-time state, key and pointer agree
and both start the game. -/
theorem c9_witness :
    keyPrimary (initState 400 600 0 none) 0 (1/2)
        = handleStartInput (initState 400 600 0 none) 0 (1/2)
    ∧ handleStartInput (initState 400 600 0 none) 0 (1/2)
        = startGame (initState 400 600 0 none) 0 (1/2) := by
  have h := c9_primary_routing (initState 400 600 0 none) 0 (1/2)
    (Reachable.init 400 600 0 none)
  exact ⟨h.1, h.2.1 (Or.inl rfl)⟩

/-- Decimal digit characters lie between code points 48 and 57. -/
lemma digit_bounds (c : Char) (h1 : '0' ≤ c) (h2 : c ≤ '9') :
    48 ≤ c.toNat ∧ c.toNat ≤ 57 := by
  constructor
  · exact BitVec.le_def.mp (UInt32.le_def.mp (Char.le_def.mp h1))
  · exact BitVec.le_def.mp (UInt32.le_def.mp (Char.le_def.mp h2))

/-- A decimal digit character is no whitespace, sign or hex marker, and
its decimal digit value is its code point minus 48. -/
lemma digit_char_facts (c : Char) (h1 : '0' ≤ c) (h2 : c ≤ '9') :
    isWs c = false ∧ c ≠ '-' ∧ c ≠ '+' ∧ c ≠ 'x' ∧ c ≠ 'X'
    ∧ digitVal 10 c = some (c.toNat - 48) := by
  obtain ⟨hl, hr⟩ := digit_bounds c h1 h2
  refine ⟨?_, ?_, ?_, ?_, ?_, ?_⟩
  · rw [isWs]
    have s1 : c ≠ ' ' := by rintro rfl; exact absurd h1 (by decide)
    have s2 : c ≠ '	' := by rintro rfl; exact absurd h1 (by decide)
    have s3 : c ≠ '
' := by rintro rfl; exact absurd h1 (by decide)
    have s4 : c ≠ '' := by rintro rfl; exact absurd h1 (by decide)
    have s5 : c ≠ '' := by rintro rfl; exact absurd h1 (by decide)
    have s6 : c ≠ '' := by rintro rfl; exact absurd h1 (by decide)
    simp [s1, s2, s3, s4, s5, s6]
  · rintro rfl; exact absurd h1 (by decide)
  · rintro rfl; exact absurd h1 (by decide)
  · rintro rfl; exact absurd h2 (by decide)
  · rintro rfl; exact absurd h2 (by decide)
  · rw [digitVal]
    rw [if_pos ⟨h1, h2⟩]
    dsimp only
    rw [if_pos (by omega)]

/-- On a nonempty string of decimal digits, `parseInt` returns the value
of the digit sequence: no whitespace is skipped, no sign or hex prefix is
consumed, and the whole string is the maximal digit prefix. -/
lemma jsParseInt_digits (c : Char) (t : List Char) (s : String)
    (hs : s.toList = c :: t)
    (hd : ∀ d ∈ c :: t, '0' ≤ d ∧ d ≤ '9') :
    jsParseInt s = JSNum.num ((digitsVal 10 (c :: t) 0 : ℕ) : ℤ) := by
  obtain ⟨hws, hm, hp, hx, hX, hv⟩ :=
    digit_char_facts c (hd c (by simp)).1 (hd c (by simp)).2
  rw [jsParseInt, hs]
  simp only [List.dropWhile_cons, hws, Bool.false_eq_true, if_false,
    List.head?_cons, Option.some.injEq, hm, if_false]
  have hstrip : (match c :: t with
      | '-' :: t => t
      | '+' :: t => t
      | x => c :: t) = c :: t := by
    split
    · rename_i t' heq
      exact absurd (List.cons.inj heq).1 hm
    · rename_i t' heq
      exact absurd (List.cons.inj heq).1 hp
    · rfl
  rw [hstrip]
  have hhex : (match c :: t with
      | '0' :: 'x' :: t => ((16:ℕ), t)
      | '0' :: 'X' :: t => ((16:ℕ), t)
      | x => ((10:ℕ), c :: t)) = ((10:ℕ), c :: t) := by
    split
    · rename_i t' heq
      have h2 := (List.cons.inj heq).2
      exact absurd (hd 'x' (by simp [h2])).2 (by decide)
    · rename_i t' heq
      have h2 := (List.cons.inj heq).2
      exact absurd (hd 'X' (by simp [h2])).2 (by decide)
    · rfl
  rw [hhex]
  dsimp only
  rw [hv]
  dsimp only
  rw [one_mul]

/-- C5 counterexample: a stored non-empty unparsable string loads as NaN,
not 0, and a stored negative integer string loads as a negative value, so
the loaded best score is neither 0 on every unparsable entry nor always a
non-negative integer. -/
theorem c5_counterexample :
    loadBestScore (some "abc") = JSNum.nan ∧ JSNum.nan ≠ JSNum.num 0
    ∧ loadBestScore (some "-5") = JSNum.num (-5) := by decide

/-- C5 amended: loading returns 0 when the entry is absent or the empty
string, and otherwise returns `parseInt` of the stored string — the
persisted integer whenever the string is a nonempty digit sequence (and
NaN, not 0, when no integer can be parsed from it). -/
theorem c5_load_amended :
    loadBestScore none = JSNum.num 0
    ∧ loadBestScore (some "") = JSNum.num 0
    ∧ (∀ s : String, s ≠ "" → loadBestScore (some s) = jsParseInt s)
    ∧ (∀ (c : Char) (t : List Char) (s : String), s.toList = c :: t →
        (∀ d ∈ c :: t, '0' ≤ d ∧ d ≤ '9') →
        jsParseInt s = JSNum.num ((digitsVal 10 (c :: t) 0 : ℕ) : ℤ)) := by
  refine ⟨rfl, rfl, ?_, jsParseInt_digits⟩
  intro s hne
  rw [loadBestScore, if_neg hne]

/-- C5 witness: the stored digit string 42 loads as the integer 42. -/
theorem c5_witness : loadBestScore (some "42") = JSNum.num 42 := by
  have h3 := c5_load_amended.2.2.1 "42" (by decide)
  have h4 := c5_load_amended.2.2.2 '4' ['2'] "42" (by decide) (by decide)
  rw [h3, h4]
  decide

end Flappy
